import Mathlib

/-!
Verification development for the solana-validator-version-sync repository.

The definitions below are a shallow embedding of the Go source:
  * internal/versiondiff/versiondiff.go  (version comparison and diff direction)
  * internal/sfdp/requirement.go         (compliance Requirements and SetClient)
  * internal/sfdp/client.go              (GetLatestRequirements record selection)
  * internal/github/client.go            (release candidate selection and the
                                          cross-network preference rule)
  * internal/validator/validator.go      (Role resolution, getSFDPCompliantVersion,
                                          SyncVersion control flow)
  * internal/sync_commands/command.go    (per-step execution and failure policy)

Versions are modelled after github.com/hashicorp/go-version: a version is the
numeric triple (major, minor, patch) plus pre-release and build-metadata
strings.  Every version handled by this repository has at most three numeric
segments, so the model fixes exactly three.  String scanning is done over
`List Char` so that all definitions reduce inside the kernel.
-/

namespace VersionSync

/-- Character list representation used for the model's string scanning. -/
abbrev Chars := List Char

/-- Splits a character list on a separator character.  Mirrors the behaviour of
Go's strings.Split: the result always has one more element than the number of
separators, and never is empty. -/
def splitOnChar (sep : Char) : Chars → List Chars
  | [] => [[]]
  | c :: cs =>
    match splitOnChar sep cs with
    | [] => if c = sep then [[], []] else [[c]]
    | h :: t => if c = sep then [] :: h :: t else (c :: h) :: t

/-- Joins character lists with a separator character (inverse of splitOnChar). -/
def joinWithChar (sep : Char) : List Chars → Chars
  | [] => []
  | [x] => x
  | x :: xs => x ++ sep :: joinWithChar sep xs

/-- Numeric value of a decimal digit list (caller checks digits first). -/
def digitsToNat (s : Chars) : Nat :=
  s.foldl (fun a c => a * 10 + (c.toNat - '0'.toNat)) 0

/-- Parses an unsigned decimal numeral, as strconv would for the digits part. -/
def parseNatChars (s : Chars) : Option Nat :=
  if s ≠ [] ∧ s.all Char.isDigit then some (digitsToNat s) else none

/-- Model of Go's strconv.ParseInt with base 10: an optional sign followed by
at least one decimal digit.  Bit-width overflow is not modelled. -/
def goParseInt (s : Chars) : Option Int :=
  match s with
  | '-' :: rest => (parseNatChars rest).map (fun n => -(n : Int))
  | '+' :: rest => (parseNatChars rest).map (fun n => (n : Int))
  | _ => (parseNatChars s).map (fun n => (n : Int))

/-- Lexicographic byte-wise comparison of Go strings (true when a < b).  All
strings handled here are ASCII, so code-point order equals byte order. -/
def charsLt : Chars → Chars → Bool
  | [], [] => false
  | [], _ :: _ => true
  | _ :: _, [] => false
  | a :: as, b :: bs =>
    if a.toNat < b.toNat then true
    else if b.toNat < a.toNat then false
    else charsLt as bs

/-- Semantic version value, following hashicorp/go-version as used by the
repository: the numeric core triple plus the pre-release and build-metadata
suffix strings. -/
structure Version where
  major : Nat
  minor : Nat
  patch : Nat
  prerelease : String
  metadata : String
deriving DecidableEq, Repr

/-- Model of hashicorp Version.Core: only the numeric MAJOR.MINOR.PATCH triple
is kept; pre-release and build-metadata are dropped. -/
def Version.Core (v : Version) : Version :=
  { major := v.major, minor := v.minor, patch := v.patch, prerelease := "", metadata := "" }

/-- Comparison of the numeric segment triples (hashicorp compareSegments). -/
def coreCompare (a b : Version) : Int :=
  if a.major < b.major then -1
  else if b.major < a.major then 1
  else if a.minor < b.minor then -1
  else if b.minor < a.minor then 1
  else if a.patch < b.patch then -1
  else if b.patch < a.patch then 1
  else 0

/-- Model of hashicorp comparePart on one dot-separated pre-release part.
An empty part (the padding for the shorter pre-release) is decided by the
other side: it orders below a numeric part and above a non-numeric one.
Otherwise numeric parts order below non-numeric parts, numeric parts compare
as integers, and non-numeric parts compare as Go strings. -/
def comparePart (preSelf preOther : Chars) : Int :=
  if preSelf = preOther then 0
  else if preSelf = [] then
    match goParseInt preOther with
    | some _ => -1
    | none => 1
  else if preOther = [] then
    match goParseInt preSelf with
    | some _ => 1
    | none => -1
  else
    match goParseInt preSelf, goParseInt preOther with
    | some _, none => -1
    | none, some _ => 1
    | none, none => if charsLt preOther preSelf then 1 else -1
    | some x, some y => if x > y then 1 else -1

/-- Model of hashicorp comparePrereleases: walks the dot-separated parts up to
the longer length, the missing side padded with the empty part, first
non-zero part comparison wins. -/
def comparePrereleases (a b : String) : Int :=
  if a = b then 0
  else
    let pa := splitOnChar '.' a.data
    let pb := splitOnChar '.' b.data
    (List.range (max pa.length pb.length)).foldl
      (fun acc i => if acc ≠ 0 then acc else comparePart (pa.getD i []) (pb.getD i [])) 0

/-- Model of hashicorp Version.Compare: the segment triples decide first; on
equal triples a version without pre-release orders above one with it, and two
pre-releases compare part-wise.  Build metadata never participates. -/
def goVersionCompare (a b : Version) : Int :=
  let c := coreCompare a b
  if c = 0 then
    if a.prerelease = "" ∧ b.prerelease = "" then 0
    else if a.prerelease = "" then 1
    else if b.prerelease = "" then -1
    else comparePrereleases a.prerelease b.prerelease
  else c

/-- Characters allowed in pre-release and build-metadata suffixes by the
hashicorp version regular expression. -/
def suffixCharOk (c : Char) : Bool :=
  c.isAlphanum || c = '-' || c = '~' || c = '.'

/-- Validity of a non-empty suffix (pre-release or metadata) string. -/
def suffixOk (s : Chars) : Bool :=
  ¬ s.isEmpty && s.all suffixCharOk

/-- Parses the numeric core: one to three dot-separated decimal segments,
missing segments defaulting to zero exactly as hashicorp pads them. -/
def parseCoreSegments (core : Chars) : Option (Nat × Nat × Nat) :=
  match (splitOnChar '.' core).mapM parseNatChars with
  | some [a] => some (a, 0, 0)
  | some [a, b] => some (a, b, 0)
  | some [a, b, c] => some (a, b, c)
  | _ => none

/-- Model of hashicorp version.NewVersion on the version shapes this
repository handles: an optional leading v, up to three numeric dot-separated
segments, an optional -prerelease suffix and an optional +metadata suffix.
Any other string fails to parse. -/
def parseVersion (s : String) : Option Version :=
  let chars := match s.data with
    | 'v' :: rest => rest
    | other => other
  match splitOnChar '+' chars with
  | [body] => parseVersionBody body ""
  | [body, meta] =>
    if suffixOk meta then parseVersionBody body (String.mk meta) else none
  | _ => none
where
  parseVersionBody (body : Chars) (meta : String) : Option Version :=
    match splitOnChar '-' body with
    | [] => none
    | core :: preParts =>
      match parseCoreSegments core with
      | none => none
      | some (a, b, c) =>
        let pre := joinWithChar '-' preParts
        if preParts = [] then
          some { major := a, minor := b, patch := c, prerelease := "", metadata := meta }
        else if suffixOk pre then
          some { major := a, minor := b, patch := c, prerelease := String.mk pre, metadata := meta }
        else none

/-- Comparison operators occurring in the constraints this repository builds
(SetClient only ever emits ">= min" and "<= max"). -/
inductive ConstraintOp where
  | ge
  | le
deriving DecidableEq, Repr

/-- One parsed constraint: an operator applied against a fixed version. -/
structure VersionConstraint where
  op : ConstraintOp
  version : Version
deriving DecidableEq, Repr

/-- Model of hashicorp prereleaseCheck, the gate every constraint operator
applies before comparing: a constraint whose bound has a pre-release suffix
matches a pre-release candidate only with the same numeric segments; a
constraint whose bound has no pre-release suffix matches no pre-release
candidate at all; candidates without a pre-release suffix always pass. -/
def prereleaseCheck (v c : Version) : Bool :=
  if c.prerelease ≠ "" ∧ v.prerelease ≠ "" then
    decide (v.major = c.major ∧ v.minor = c.minor ∧ v.patch = c.patch)
  else if c.prerelease = "" ∧ v.prerelease ≠ "" then false
  else true

/-- Model of one hashicorp constraint check against a candidate version: the
pre-release gate and then the comparison for the operator. -/
def VersionConstraint.check (c : VersionConstraint) (v : Version) : Bool :=
  match c.op with
  | .ge => prereleaseCheck v c.version && 0 ≤ goVersionCompare v c.version
  | .le => prereleaseCheck v c.version && goVersionCompare v c.version ≤ 0

/-- Model of hashicorp Constraints.Check: every constraint must hold. -/
def checkConstraints (cs : List VersionConstraint) (v : Version) : Bool :=
  cs.all (fun c => c.check v)

/-- Client name constant from internal/constants (agave). -/
def clientNameAgave : String := "agave"

/-- Client name constant from internal/constants (jito-solana). -/
def clientNameJitoSolana : String := "jito-solana"

/-- Client name constant from internal/constants (firedancer). -/
def clientNameFiredancer : String := "firedancer"

/-- Cluster name constant from internal/constants (mainnet-beta). -/
def clusterNameMainnetBeta : String := "mainnet-beta"

/-- Cluster name constant from internal/constants (testnet). -/
def clusterNameTestnet : String := "testnet"

/-- SFDP per-epoch compliance record: the JSON fields decoded from the
compliance source followed by the fields SetClient fills in
(internal/sfdp/requirement.go, struct Requirements). -/
structure Requirements where
  epoch : Int
  cluster : String
  agaveMinVersion : String
  agaveMaxVersion : String
  firedancerMinVersion : String
  firedancerMaxVersion : String
  inheritedFromPreviousEpoch : Bool
  client : String
  constraintsString : String
  constraints : List VersionConstraint
  maxVersion : Option Version
  minVersion : Option Version
  hasMaxVersion : Bool
  hasMinVersion : Bool
deriving DecidableEq, Repr

/-- Freshly decoded compliance record: only the JSON fields are populated, the
SetClient-owned fields hold their Go zero values. -/
def Requirements.fresh (epoch : Int) (cluster : String)
    (agaveMinVersion agaveMaxVersion firedancerMinVersion firedancerMaxVersion : String)
    (inheritedFromPreviousEpoch : Bool) : Requirements :=
  { epoch := epoch, cluster := cluster,
    agaveMinVersion := agaveMinVersion, agaveMaxVersion := agaveMaxVersion,
    firedancerMinVersion := firedancerMinVersion, firedancerMaxVersion := firedancerMaxVersion,
    inheritedFromPreviousEpoch := inheritedFromPreviousEpoch,
    client := "", constraintsString := "", constraints := [],
    maxVersion := none, minVersion := none,
    hasMaxVersion := false, hasMinVersion := false }

/-- Joins constraint strings with a comma, as strings.Join does in SetClient. -/
def joinWithComma : List String → String
  | [] => ""
  | [x] => x
  | x :: xs => x ++ "," ++ joinWithComma xs

/-- Parses one optional bound string: the empty string means the bound is
absent, a non-empty string must parse as a version or SetClient fails. -/
def parseBoundVersion (s : String) : Except String (Option Version) :=
  if s = "" then .ok none
  else
    match parseVersion s with
    | some v => .ok (some v)
    | none => .error "Malformed version"

/-- Bound-processing half of SetClient: records present bounds, builds the
constraint list in min-then-max order exactly as the source appends the
constraint strings, and fails when no bound is present (version.NewConstraint
rejects the empty constraints string). -/
def setClientBounds (r : Requirements) (minVersionString maxVersionString : String) :
    Except String Requirements :=
  match parseBoundVersion minVersionString with
  | .error e => .error ("failed to parse min version: " ++ e)
  | .ok minParsed =>
    match parseBoundVersion maxVersionString with
    | .error e => .error ("failed to parse max version: " ++ e)
    | .ok maxParsed =>
      let constraintsList :=
        (match minParsed with
         | some v => [VersionConstraint.mk ConstraintOp.ge v]
         | none => []) ++
        (match maxParsed with
         | some v => [VersionConstraint.mk ConstraintOp.le v]
         | none => [])
      let constraintsStrs :=
        (match minParsed with
         | some _ => [">= " ++ minVersionString]
         | none => []) ++
        (match maxParsed with
         | some _ => ["<= " ++ maxVersionString]
         | none => [])
      if constraintsList = [] then .error "failed to parse constraints"
      else
        .ok { r with
          hasMinVersion := if minVersionString = "" then r.hasMinVersion else true,
          minVersion := if minVersionString = "" then r.minVersion else minParsed,
          hasMaxVersion := if maxVersionString = "" then r.hasMaxVersion else true,
          maxVersion := if maxVersionString = "" then r.maxVersion else maxParsed,
          constraintsString := joinWithComma constraintsStrs,
          constraints := constraintsList }

/-- Model of Requirements.SetClient: maps the client name to its bound fields
(jito-solana shares the agave compliance scope), rejects unknown clients, then
processes the bounds. -/
def Requirements.setClient (r : Requirements) (client : String) : Except String Requirements :=
  if client = clientNameAgave ∨ client = clientNameJitoSolana then
    setClientBounds { r with client := clientNameAgave } r.agaveMinVersion r.agaveMaxVersion
  else if client = clientNameFiredancer then
    setClientBounds { r with client := client } r.firedancerMinVersion r.firedancerMaxVersion
  else .error ("invalid client: " ++ client)

/-- Loop body of the record selection in GetLatestRequirements: keep the
record seen so far unless the next one has a strictly higher epoch. -/
def pickLatestStep (latest r : Requirements) : Requirements :=
  if latest.epoch < r.epoch then r else latest

/-- Record selection of GetLatestRequirements (internal/sfdp/client.go): start
from the first record and scan the whole list for a strictly higher epoch.
The caller has already errored out on an empty list, so none is unreachable
in the source. -/
def selectLatestRequirements (data : List Requirements) : Option Requirements :=
  match data with
  | [] => none
  | first :: _ => some (data.foldl pickLatestStep first)

/-- Model of Validator.getSFDPCompliantVersion after the Requirements fetch.
The source applies three independent if statements in sequence: constraint
check, max-bound check, min-bound check; each assigns the result variable, so
a later assignment overwrites an earlier one.  The outer Option models the Go
panic that dereferencing a nil MaxVersion/MinVersion pointer would cause when
a Has flag is set without its parsed version; the inner Option is the
returned pointer, which stays nil when no branch assigns it. -/
def getSFDPCompliantVersion (reqs : Requirements) (target : Version) :
    Option (Option Version) :=
  let afterCheck : Option Version :=
    if checkConstraints reqs.constraints target.Core then some target else none
  let afterMax : Option (Option Version) :=
    if reqs.hasMaxVersion then
      match reqs.maxVersion with
      | none => none
      | some mx =>
        some (if 0 < goVersionCompare target.Core mx.Core then some mx else afterCheck)
    else some afterCheck
  match afterMax with
  | none => none
  | some cur =>
    if reqs.hasMinVersion then
      match reqs.minVersion with
      | none => none
      | some mn =>
        some (if goVersionCompare target.Core mn.Core < 0 then some mn else cur)
    else some cur

/-- Role string constant RoleActive. -/
def RoleActive : String := "active"

/-- Role string constant RolePassive. -/
def RolePassive : String := "passive"

/-- Role string constant RoleUnknown. -/
def RoleUnknown : String := "unknown"

/-- Model of Validator.IsActive: the refreshed identity equals the configured
active identity public key. -/
def IsActive (identityPublicKey activeIdentityPublicKey : String) : Bool :=
  identityPublicKey == activeIdentityPublicKey

/-- Model of Validator.IsPassive: the refreshed identity equals the configured
passive identity public key and the validator is not active (the active match
wins when both configured identities are the same). -/
def IsPassive (identityPublicKey activeIdentityPublicKey passiveIdentityPublicKey : String) : Bool :=
  identityPublicKey == passiveIdentityPublicKey &&
    !(IsActive identityPublicKey activeIdentityPublicKey)

/-- Model of Validator.Role: active, else passive, else unknown. -/
def Role (identityPublicKey activeIdentityPublicKey passiveIdentityPublicKey : String) : String :=
  if IsActive identityPublicKey activeIdentityPublicKey then RoleActive
  else if IsPassive identityPublicKey activeIdentityPublicKey passiveIdentityPublicKey then RolePassive
  else RoleUnknown

/-- Difference between two parsed versions (internal/versiondiff). -/
structure VersionDiff where
  From : Version
  To : Version
deriving DecidableEq, Repr

/-- Model of VersionDiff.IsSameVersion: equality of the core triples. -/
def VersionDiff.IsSameVersion (v : VersionDiff) : Bool :=
  goVersionCompare v.From.Core v.To.Core = 0

/-- Model of VersionDiff.IsUpgrade: the core of To is greater than the core of
From. -/
def VersionDiff.IsUpgrade (v : VersionDiff) : Bool :=
  0 < goVersionCompare v.To.Core v.From.Core

/-- Model of VersionDiff.IsDowngrade: the core of To is less than the core of
From. -/
def VersionDiff.IsDowngrade (v : VersionDiff) : Bool :=
  goVersionCompare v.To.Core v.From.Core < 0

/-- Model of VersionDiff.HasMajorChange. -/
def VersionDiff.HasMajorChange (v : VersionDiff) : Bool :=
  v.To.Core.major ≠ v.From.Core.major

/-- Model of VersionDiff.HasMinorChange. -/
def VersionDiff.HasMinorChange (v : VersionDiff) : Bool :=
  v.To.Core.minor ≠ v.From.Core.minor

/-- Model of VersionDiff.HasPatchChange. -/
def VersionDiff.HasPatchChange (v : VersionDiff) : Bool :=
  v.To.Core.patch ≠ v.From.Core.patch

/-- Model of VersionDiff.Direction: same, else upgrade, else downgrade, else
unknown. -/
def VersionDiff.Direction (v : VersionDiff) : String :=
  if v.IsSameVersion then "same"
  else if v.IsUpgrade then "upgrade"
  else if v.IsDowngrade then "downgrade"
  else "unknown"

/-- One upstream release entry as the release catalog returns it
(tag name, release title, release body). -/
structure RepositoryRelease where
  tagName : String
  name : String
  body : String
deriving DecidableEq, Repr

/-- Model of versionsFromReleaseTitleRegex: tags of the releases whose title
matches the per-cluster pattern (the compiled regular expression is abstracted
as a predicate on the title string). -/
def versionsFromReleaseTitleRegex (releases : List RepositoryRelease)
    (titleMatches : String → Bool) : List String :=
  (releases.filter (fun r => titleMatches r.name)).map (fun r => r.tagName)

/-- Model of versionsFromReleaseBodyRegex: tags of the releases whose body
matches the per-cluster pattern. -/
def versionsFromReleaseBodyRegex (releases : List RepositoryRelease)
    (bodyMatches : String → Bool) : List String :=
  (releases.filter (fun r => bodyMatches r.body)).map (fun r => r.tagName)

/-- Sort relation used to model sort.Sort(version.Collection): ascending by
version comparison.  A nil entry (none) would make the Go Less method panic;
the model keeps the relation total and the theorems only rely on orderings of
lists whose entries all parsed. -/
def versionEntryLe (a b : Option Version) : Bool :=
  match a, b with
  | some x, some y => goVersionCompare x y ≤ 0
  | _, _ => true

/-- Model of Client.sortedVersionsFromVersionStrings: each tag string is
parsed with the error discarded, so an unparsable tag leaves a nil (none)
entry in the slice, and the slice is then sorted. -/
def sortedVersionsFromVersionStrings (versionStrings : List String) :
    List (Option Version) :=
  List.insertionSort (fun a b => versionEntryLe a b = true)
    (versionStrings.map parseVersion)

/-- Per-cluster map access latestClusterVersion[cluster]: a missing key yields
the zero value, a nil version pointer, modelled as none. -/
def latestClusterLookup (cluster : String) (latestMainnet latestTestnet : Version) :
    Option Version :=
  if cluster = clusterNameMainnetBeta then some latestMainnet
  else if cluster = clusterNameTestnet then some latestTestnet
  else none

/-- Final selection step of GetLatestClientVersion: take the configured
cluster's own maximum, then, only for the testnet cluster, substitute the
mainnet maximum when it is strictly greater.  none models the nil pointer a
lookup outside the two valid cluster names would produce (the source then
panics dereferencing it in the log call). -/
def crossNetworkSelect (cluster : String) (latestMainnet latestTestnet : Version) :
    Option Version :=
  match latestClusterLookup cluster latestMainnet latestTestnet with
  | none => none
  | some latestVersion =>
    some (if cluster = clusterNameTestnet ∧ 0 < goVersionCompare latestMainnet latestVersion
          then latestMainnet else latestVersion)

/-- Outcome of GetLatestClientVersion: a version, an error, or a Go runtime
panic from dereferencing a nil version pointer. -/
inductive GithubResult where
  | ok (v : Version)
  | failed (message : String)
  | nilPanic
deriving DecidableEq, Repr

/-- Model of the pure tail of Client.GetLatestClientVersion, starting from the
per-cluster candidate tag sets (the two clusters of ValidClusterNames): the
empty-set check loops over every cluster in the map and fails on the first
empty set; then each cluster's candidates are sorted and the last entry
taken, the source dereferencing it in a debug log call (panic when nil); then
the cross-network selection runs. -/
def getLatestClientVersionFromCandidates (cluster : String)
    (mainnetVersionStrings testnetVersionStrings : List String) : GithubResult :=
  if mainnetVersionStrings = [] then
    .failed ("no " ++ clusterNameMainnetBeta ++ " releases found matching regex")
  else if testnetVersionStrings = [] then
    .failed ("no " ++ clusterNameTestnet ++ " releases found matching regex")
  else
    match (sortedVersionsFromVersionStrings mainnetVersionStrings).getLast?,
          (sortedVersionsFromVersionStrings testnetVersionStrings).getLast? with
    | some (some latestMainnet), some (some latestTestnet) =>
      match crossNetworkSelect cluster latestMainnet latestTestnet with
      | none => .nilPanic
      | some v => .ok v
    | _, _ => .nilPanic

/-- Execution error raised by a pipeline step (internal/sync_commands). -/
inductive ExecError where
  | startFailed
  | commandFailed
deriving DecidableEq, Repr

/-- Rendered per-step execution options (struct ExecOptions). -/
structure ExecOptions where
  commandIndex : Nat
  disabled : Bool
  allowFailure : Bool
  cmd : String
  args : List String
  environment : List (String × String)
  streamOutput : Bool
deriving DecidableEq, Repr

/-- Behaviour of the spawned external process for one step: the launch fails,
or the process runs and exits with the given status code. -/
inductive ProcOutcome where
  | startFailure
  | exited (code : Nat)
deriving DecidableEq, Repr

/-- Model of strings.TrimSpace on a character list. -/
def trimChars (s : Chars) : Chars :=
  ((s.dropWhile Char.isWhitespace).reverse.dropWhile Char.isWhitespace).reverse

/-- Model of Command.exec: a disabled step is skipped; blank rendered
arguments are dropped; then the process runs.  In stream-output mode a launch
failure honours allowFailure, but the error assigned from cmd.Wait() is never
returned: the function falls through to return nil, so a non-zero exit is
swallowed.  In buffered mode a non-nil error from cmd.Run() (launch failure
or non-zero exit) returns nil under allowFailure and the error otherwise. -/
def execStep (opts : ExecOptions) (proc : ProcOutcome) : Except ExecError Unit :=
  if opts.disabled then .ok ()
  else
    let _sanitizedArgs := opts.args.filter (fun a => ¬ trimChars a.data = [])
    if opts.streamOutput then
      match proc with
      | .startFailure =>
        if opts.allowFailure then .ok ()
        else .error .startFailed
      | .exited _ => .ok ()
    else
      match proc with
      | .exited 0 => .ok ()
      | _ =>
        if opts.allowFailure then .ok ()
        else .error .commandFailed

/-- Command loop of Validator.SyncVersion, from a given starting index: each
step executes in order and the first returned error aborts the loop.  The
second component records the indices of the steps whose execution was
attempted. -/
def runCommandsFrom : Nat → List (ExecOptions × ProcOutcome) →
    Except ExecError Unit × List Nat
  | _, [] => (.ok (), [])
  | i, c :: rest =>
    match execStep c.1 c.2 with
    | .ok _ =>
      let p := runCommandsFrom (i + 1) rest
      (p.1, i :: p.2)
    | .error e => (.error e, [i])

/-- Command loop of Validator.SyncVersion over the configured steps. -/
def runCommands (commands : List (ExecOptions × ProcOutcome)) :
    Except ExecError Unit × List Nat :=
  runCommandsFrom 0 commands

/-- Network calls a sync attempt can make, in the order SyncVersion issues
them. -/
inductive SyncCall where
  | rpcGetVersion
  | rpcGetIdentity
  | rpcGetHealth
  | rpcGetClusterNodes
  | githubGetLatestClientVersion
  | sfdpGetLatestRequirements
  | githubHasTaggedVersion
deriving DecidableEq, Repr

/-- Named failure conditions of one sync attempt. -/
inductive SyncError where
  | rpcFailed
  | versionStringInvalid
  | noActiveLeaderInGossip
  | unrecognizedIdentity
  | releaseDiscoveryFailed
  | sfdpFailed
  | hasTaggedFailed
  | sfdpVersionNotTagged
  | targetVersionOutsideConstraint
  | commandFailed
deriving DecidableEq, Repr

/-- Outcome of one sync attempt: completed (nil), a named failure, or a Go
nil-pointer panic. -/
inductive SyncOutcome where
  | completed
  | failed (e : SyncError)
  | nilPanic
deriving DecidableEq, Repr

/-- Environment of one sync attempt: the configuration the Validator was
built with and the responses the external collaborators would give to each
call this attempt makes. -/
structure SyncEnv where
  activeIdentityPublicKey : String
  passiveIdentityPublicKey : String
  enabledWhenActive : Bool
  enabledWhenNoActiveLeaderInGossip : Bool
  enableSFDPCompliance : Bool
  versionConstraintCheck : Version → Bool
  rpcGetVersionResponse : Except String String
  rpcGetIdentityResponse : Except String String
  rpcGetHealthResponse : Except String String
  rpcGetNodeWithActiveIdentityResponse : Except String (Bool × String)
  githubGetLatestClientVersionResult : GithubResult
  sfdpGetLatestRequirementsResponse : Except String Requirements
  githubHasTaggedVersionResponse : Except String Bool
  commands : List (ExecOptions × ProcOutcome)

/-- Steps 4 to 6 of SyncVersion after the target version is fixed: the no-op
check, the validator.version_constraint check on the target core, the
zero-commands skip, and the command loop. -/
def syncVersionExecute (env : SyncEnv) (vd : VersionDiff) (t : List SyncCall) :
    SyncOutcome × List SyncCall :=
  if vd.IsSameVersion then (.completed, t)
  else if ¬ env.versionConstraintCheck vd.To.Core then
    (.failed .targetVersionOutsideConstraint, t)
  else if env.commands.length = 0 then (.completed, t)
  else
    match (runCommands env.commands).1 with
    | .ok _ => (.completed, t)
    | .error _ => (.failed .commandFailed, t)

/-- Step 3 of SyncVersion: release discovery, then, when SFDP compliance is
enabled, the compliant-version computation, the nil-pointer panic the source
hits when that computation assigns nothing, and the tagged-version
confirmation. -/
def syncVersionResolveTarget (env : SyncEnv) (fromVersion : Version) (t : List SyncCall) :
    SyncOutcome × List SyncCall :=
  let t := t ++ [SyncCall.githubGetLatestClientVersion]
  match env.githubGetLatestClientVersionResult with
  | .failed _ => (.failed .releaseDiscoveryFailed, t)
  | .nilPanic => (.nilPanic, t)
  | .ok toVersion =>
    if env.enableSFDPCompliance then
      let t := t ++ [SyncCall.sfdpGetLatestRequirements]
      match env.sfdpGetLatestRequirementsResponse with
      | .error _ => (.failed .sfdpFailed, t)
      | .ok reqs =>
        match getSFDPCompliantVersion reqs toVersion with
        | none => (.nilPanic, t)
        | some none => (.nilPanic, t)
        | some (some compliant) =>
          let t := t ++ [SyncCall.githubHasTaggedVersion]
          match env.githubHasTaggedVersionResponse with
          | .error _ => (.failed .hasTaggedFailed, t)
          | .ok false => (.failed .sfdpVersionNotTagged, t)
          | .ok true => syncVersionExecute env ⟨fromVersion, compliant⟩ t
    else syncVersionExecute env ⟨fromVersion, toVersion⟩ t

/-- Model of Validator.SyncVersion: state refresh (version string fetch and
parse, identity fetch, health fetch), the role gate with its gossip
safeguard, then target resolution and execution.  The second component is the
ordered list of network calls the attempt made. -/
def syncVersion (env : SyncEnv) : SyncOutcome × List SyncCall :=
  let t := [SyncCall.rpcGetVersion]
  match env.rpcGetVersionResponse with
  | .error _ => (.failed .rpcFailed, t)
  | .ok versionString =>
    match parseVersion versionString with
    | none => (.failed .versionStringInvalid, t)
    | some fromVersion =>
      let t := t ++ [SyncCall.rpcGetIdentity]
      match env.rpcGetIdentityResponse with
      | .error _ => (.failed .rpcFailed, t)
      | .ok identity =>
        let t := t ++ [SyncCall.rpcGetHealth]
        match env.rpcGetHealthResponse with
        | .error _ => (.failed .rpcFailed, t)
        | .ok _ =>
          if IsActive identity env.activeIdentityPublicKey then
            if ¬ env.enabledWhenActive then (.completed, t)
            else syncVersionResolveTarget env fromVersion t
          else if IsPassive identity env.activeIdentityPublicKey
              env.passiveIdentityPublicKey then
            let t := t ++ [SyncCall.rpcGetClusterNodes]
            match env.rpcGetNodeWithActiveIdentityResponse with
            | .error _ => (.failed .rpcFailed, t)
            | .ok (hasActiveLeaderInGossip, _) =>
              if hasActiveLeaderInGossip then syncVersionResolveTarget env fromVersion t
              else if ¬ env.enabledWhenNoActiveLeaderInGossip then
                (.failed .noActiveLeaderInGossip, t)
              else syncVersionResolveTarget env fromVersion t
          else (.failed .unrecognizedIdentity, t)

/-! Theorems -/

/-- C5: Role resolution is total and deterministic: for every triple
(identity, activeKey, passiveKey), Role returns exactly one of active,
passive, or unknown (the three role strings being pairwise distinct), it
returns active whenever identity equals activeKey — even when activeKey
equals passiveKey — and IsActive and IsPassive are never both true. -/
theorem C5_role_resolution :
    (∀ identity activeKey passiveKey : String,
       Role identity activeKey passiveKey = RoleActive ∨
       Role identity activeKey passiveKey = RolePassive ∨
       Role identity activeKey passiveKey = RoleUnknown)
    ∧ (RoleActive ≠ RolePassive ∧ RoleActive ≠ RoleUnknown ∧ RolePassive ≠ RoleUnknown)
    ∧ (∀ identity activeKey passiveKey : String, identity = activeKey →
       Role identity activeKey passiveKey = RoleActive)
    ∧ (∀ identity activeKey passiveKey : String,
       ¬ (IsActive identity activeKey = true ∧
          IsPassive identity activeKey passiveKey = true)) := by
  refine ⟨?_, by refine ⟨by decide, by decide, by decide⟩, ?_, ?_⟩
  · intro i a p
    unfold Role
    split
    · exact Or.inl rfl
    · split
      · exact Or.inr (Or.inl rfl)
      · exact Or.inr (Or.inr rfl)
  · intro i a p h
    subst h
    simp [Role, IsActive]
  · intro i a p h
    obtain ⟨ha, hp⟩ := h
    simp [IsPassive, ha] at hp

/-- Witness for C5 at a concrete input: when the identity equals the active
key the role is active, here with active and passive keys identical. -/
theorem C5_role_resolution_witness :
    Role "key1" "key1" "key1" = RoleActive :=
  C5_role_resolution.2.2.1 "key1" "key1" "key1" rfl

/-- C9: IsSameVersion, IsUpgrade, IsDowngrade and Direction depend only on
the (major, minor, patch) core triples of the two versions: replacing either
version by one with the same core but different pre-release or metadata
suffix leaves every result unchanged; in particular 1.18.0-beta.1 and
1.18.0-beta.2 are the same version. -/
theorem C9_versiondiff_core_only :
    (∀ f t f2 t2 : Version, f2.Core = f.Core → t2.Core = t.Core →
       (VersionDiff.mk f2 t2).IsSameVersion = (VersionDiff.mk f t).IsSameVersion
       ∧ (VersionDiff.mk f2 t2).IsUpgrade = (VersionDiff.mk f t).IsUpgrade
       ∧ (VersionDiff.mk f2 t2).IsDowngrade = (VersionDiff.mk f t).IsDowngrade
       ∧ (VersionDiff.mk f2 t2).Direction = (VersionDiff.mk f t).Direction)
    ∧ (VersionDiff.mk ⟨1, 18, 0, "beta.1", ""⟩ ⟨1, 18, 0, "beta.2", ""⟩).IsSameVersion
        = true := by
  constructor
  · intro f t f2 t2 hf ht
    refine ⟨?_, ?_, ?_, ?_⟩ <;>
      simp only [VersionDiff.IsSameVersion, VersionDiff.IsUpgrade,
        VersionDiff.IsDowngrade, VersionDiff.Direction, hf, ht]
  · decide

/-- Witness for C9 at a concrete input: swapping the pre-release suffix
beta.1 for beta.2 on either side changes none of the four results. -/
theorem C9_versiondiff_core_only_witness :
    (VersionDiff.mk ⟨1, 18, 0, "beta.2", ""⟩ ⟨1, 18, 0, "", ""⟩).IsSameVersion
      = (VersionDiff.mk ⟨1, 18, 0, "beta.1", ""⟩ ⟨1, 18, 0, "", ""⟩).IsSameVersion
    ∧ (VersionDiff.mk ⟨1, 18, 0, "beta.2", ""⟩ ⟨1, 18, 0, "", ""⟩).IsUpgrade
      = (VersionDiff.mk ⟨1, 18, 0, "beta.1", ""⟩ ⟨1, 18, 0, "", ""⟩).IsUpgrade
    ∧ (VersionDiff.mk ⟨1, 18, 0, "beta.2", ""⟩ ⟨1, 18, 0, "", ""⟩).IsDowngrade
      = (VersionDiff.mk ⟨1, 18, 0, "beta.1", ""⟩ ⟨1, 18, 0, "", ""⟩).IsDowngrade
    ∧ (VersionDiff.mk ⟨1, 18, 0, "beta.2", ""⟩ ⟨1, 18, 0, "", ""⟩).Direction
      = (VersionDiff.mk ⟨1, 18, 0, "beta.1", ""⟩ ⟨1, 18, 0, "", ""⟩).Direction :=
  C9_versiondiff_core_only.1 ⟨1, 18, 0, "beta.1", ""⟩ ⟨1, 18, 0, "", ""⟩
    ⟨1, 18, 0, "beta.2", ""⟩ ⟨1, 18, 0, "", ""⟩ (by decide) (by decide)

/-- Fold result of the epoch-selection loop is the accumulator or one of the
scanned records. -/
theorem foldl_pickLatest_mem (l : List Requirements) (a : Requirements) :
    l.foldl pickLatestStep a = a ∨ l.foldl pickLatestStep a ∈ l := by
  induction l generalizing a with
  | nil => exact Or.inl rfl
  | cons x xs ih =>
    simp only [List.foldl_cons]
    rcases ih (pickLatestStep a x) with h | h
    · rw [h]
      unfold pickLatestStep
      split
      · exact Or.inr (List.mem_cons_self x xs)
      · exact Or.inl rfl
    · exact Or.inr (List.mem_cons_of_mem x h)

/-- Fold result of the epoch-selection loop has epoch at least that of the
accumulator. -/
theorem foldl_pickLatest_acc_le (l : List Requirements) (a : Requirements) :
    a.epoch ≤ (l.foldl pickLatestStep a).epoch := by
  induction l generalizing a with
  | nil => exact le_refl _
  | cons x xs ih =>
    simp only [List.foldl_cons]
    refine le_trans ?_ (ih (pickLatestStep a x))
    unfold pickLatestStep
    split
    · exact le_of_lt (by assumption)
    · exact le_refl _

/-- Fold result of the epoch-selection loop has epoch at least that of every
scanned record. -/
theorem foldl_pickLatest_all_le (l : List Requirements) (a : Requirements) :
    ∀ r ∈ l, r.epoch ≤ (l.foldl pickLatestStep a).epoch := by
  induction l generalizing a with
  | nil => intro r hr; cases hr
  | cons x xs ih =>
    intro r hr
    simp only [List.foldl_cons]
    rcases List.mem_cons.mp hr with h | h
    · subst h
      refine le_trans ?_ (foldl_pickLatest_acc_le xs (pickLatestStep a r))
      unfold pickLatestStep
      split
      · exact le_refl _
      · omega
    · exact ih (pickLatestStep a x) r h

/-- C6: for every non-empty list of per-epoch compliance records,
GetLatestRequirements selects a record of the list whose epoch is the maximum
over the list. -/
theorem C6_select_latest_requirements :
    ∀ (data : List Requirements) (rec : Requirements),
      selectLatestRequirements data = some rec →
      rec ∈ data ∧ ∀ r ∈ data, r.epoch ≤ rec.epoch := by
  intro data rec h
  match data with
  | [] => simp [selectLatestRequirements] at h
  | first :: rest =>
    have hrec : rec = (first :: rest).foldl pickLatestStep first := by
      simp only [selectLatestRequirements] at h
      exact (Option.some.injEq _ _ ▸ h).symm
    subst hrec
    constructor
    · rcases foldl_pickLatest_mem (first :: rest) first with h | h
      · rw [h]; exact List.mem_cons_self _ _
      · exact h
    · exact foldl_pickLatest_all_le (first :: rest) first

/-- Witness for C6 at a concrete input: among epochs 5, 9 and 7 the record
with epoch 9 is selected and dominates the list. -/
theorem C6_select_latest_requirements_witness :
    Requirements.fresh 9 "testnet" "" "" "" "" false ∈
      [Requirements.fresh 5 "testnet" "" "" "" "" false,
       Requirements.fresh 9 "testnet" "" "" "" "" false,
       Requirements.fresh 7 "testnet" "" "" "" "" false]
    ∧ ∀ r ∈ [Requirements.fresh 5 "testnet" "" "" "" "" false,
             Requirements.fresh 9 "testnet" "" "" "" "" false,
             Requirements.fresh 7 "testnet" "" "" "" "" false],
        r.epoch ≤ (Requirements.fresh 9 "testnet" "" "" "" "" false).epoch :=
  C6_select_latest_requirements
    [Requirements.fresh 5 "testnet" "" "" "" "" false,
     Requirements.fresh 9 "testnet" "" "" "" "" false,
     Requirements.fresh 7 "testnet" "" "" "" "" false]
    (Requirements.fresh 9 "testnet" "" "" "" "" false) (by decide)

/-- C7: for every pair of per-cluster maximum candidate versions, the final
selection of GetLatestClientVersion substitutes the mainnet candidate exactly
when the configured cluster is testnet and the mainnet candidate is strictly
greater than the testnet candidate; for the testnet cluster otherwise, and
always for the mainnet-beta cluster, the configured cluster's own maximum is
returned. -/
theorem C7_cross_network_preference :
    ∀ latestMainnet latestTestnet : Version,
      (0 < goVersionCompare latestMainnet latestTestnet →
        crossNetworkSelect clusterNameTestnet latestMainnet latestTestnet
          = some latestMainnet)
      ∧ (¬ 0 < goVersionCompare latestMainnet latestTestnet →
        crossNetworkSelect clusterNameTestnet latestMainnet latestTestnet
          = some latestTestnet)
      ∧ crossNetworkSelect clusterNameMainnetBeta latestMainnet latestTestnet
          = some latestMainnet := by
  intro lm lt
  refine ⟨?_, ?_, ?_⟩
  · intro h
    simp [crossNetworkSelect, latestClusterLookup, clusterNameTestnet,
      clusterNameMainnetBeta, h]
  · intro h
    simp [crossNetworkSelect, latestClusterLookup, clusterNameTestnet,
      clusterNameMainnetBeta, h]
  · simp [crossNetworkSelect, latestClusterLookup, clusterNameTestnet,
      clusterNameMainnetBeta]

/-- Witness for C7 at a concrete input: testnet trailing mainnet picks the
mainnet candidate. -/
theorem C7_cross_network_preference_witness :
    crossNetworkSelect clusterNameTestnet ⟨1, 5, 0, "", ""⟩ ⟨1, 4, 0, "", ""⟩
      = some ⟨1, 5, 0, "", ""⟩ :=
  (C7_cross_network_preference ⟨1, 5, 0, "", ""⟩ ⟨1, 4, 0, "", ""⟩).1 (by decide)

/-- Stream-output step with allow_failure off, as a sync pipeline would run
it. -/
def streamStrictStep : ExecOptions :=
  { commandIndex := 0, disabled := false, allowFailure := false,
    cmd := "restart-validator", args := [], environment := [], streamOutput := true }

/-- Buffered step with allow_failure off. -/
def bufferedStrictStep : ExecOptions :=
  { commandIndex := 0, disabled := false, allowFailure := false,
    cmd := "restart-validator", args := [], environment := [], streamOutput := false }

/-- Buffered step with allow_failure on. -/
def bufferedLenientStep : ExecOptions :=
  { commandIndex := 0, disabled := false, allowFailure := true,
    cmd := "restart-validator", args := [], environment := [], streamOutput := false }

/-- Stream-output step with allow_failure on. -/
def streamLenientStep : ExecOptions :=
  { commandIndex := 0, disabled := false, allowFailure := true,
    cmd := "restart-validator", args := [], environment := [], streamOutput := true }

/-- C2: evaluation of the step executor and the pipeline loop at the claim's
inputs.  In buffered mode a non-zero exit behaves as the claim states
(error without allowFailure, nil with it), but in stream-output mode a
non-zero exit returns nil even with allowFailure false — the error assigned
from cmd.Wait() is dropped when the function falls through to return nil —
so the failed step does not abort the pipeline and the next step still
runs. -/
theorem C2_stream_mode_swallows_exit_failure :
    execStep streamStrictStep (.exited 1) = .ok ()
    ∧ execStep bufferedStrictStep (.exited 1) = .error .commandFailed
    ∧ execStep bufferedLenientStep (.exited 1) = .ok ()
    ∧ execStep streamLenientStep (.exited 1) = .ok ()
    ∧ runCommands [(streamStrictStep, .exited 1), (bufferedStrictStep, .exited 0)]
        = (.ok (), [0, 1])
    ∧ runCommands [(bufferedStrictStep, .exited 1), (bufferedStrictStep, .exited 0)]
        = (.error .commandFailed, [0])
    ∧ runCommands [(bufferedLenientStep, .exited 1), (bufferedStrictStep, .exited 0)]
        = (.ok (), [0, 1]) :=
  ⟨rfl, rfl, rfl, rfl, rfl, rfl, rfl⟩

/-- C10: every entry of the sorted candidate slice is a parsed version when
every tag parses; an unparsable tag is stored as a nil entry, and on an input
whose matched tag does not parse, GetLatestClientVersion reaches the
nil-pointer dereference instead of returning an error. -/
theorem C10_unparsable_tag_nil_dereference :
    (∀ versionStrings : List String,
       (∀ s ∈ versionStrings, (parseVersion s).isSome = true) →
       ∀ ov ∈ sortedVersionsFromVersionStrings versionStrings, ov.isSome = true)
    ∧ sortedVersionsFromVersionStrings ["garbage-tag"] = [none]
    ∧ getLatestClientVersionFromCandidates clusterNameMainnetBeta
        ["garbage-tag"] ["v1.0.0"] = .nilPanic := by
  refine ⟨?_, by decide, by decide⟩
  intro vs h ov hmem
  rw [sortedVersionsFromVersionStrings] at hmem
  have hmem2 : ov ∈ vs.map parseVersion :=
    (List.mem_insertionSort (fun a b => versionEntryLe a b = true)).mp hmem
  obtain ⟨s, hs, hov⟩ := List.mem_map.mp hmem2
  rw [← hov]
  exact h s hs

/-- Witness for C10 at a concrete input: with a parsable tag list every
sorted entry is a parsed version. -/
theorem C10_unparsable_tag_nil_dereference_witness :
    (sortedVersionsFromVersionStrings ["v1.0.0", "v1.2.0"]).all Option.isSome = true :=
  List.all_eq_true.mpr
    (C10_unparsable_tag_nil_dereference.1 ["v1.0.0", "v1.2.0"] (by decide))

/-- Last entry of the sorted candidate slice of a non-empty, fully parsable
tag list is a parsed version. -/
theorem sorted_getLast_isSome (vs : List String) (hne : vs ≠ [])
    (hp : ∀ s ∈ vs, (parseVersion s).isSome = true) :
    ∃ v : Version, (sortedVersionsFromVersionStrings vs).getLast? = some (some v) := by
  have hLne : sortedVersionsFromVersionStrings vs ≠ [] := by
    have hlen : (sortedVersionsFromVersionStrings vs).length = vs.length := by
      simp [sortedVersionsFromVersionStrings, List.length_insertionSort]
    intro hnil
    rw [hnil] at hlen
    exact hne (List.eq_nil_of_length_eq_zero hlen.symm)
  obtain ⟨o, ho⟩ := Option.isSome_iff_exists.mp (List.getLast?_isSome.mpr hLne)
  have hmem : o ∈ sortedVersionsFromVersionStrings vs := by
    have hlast : (sortedVersionsFromVersionStrings vs).getLast? =
        some ((sortedVersionsFromVersionStrings vs).getLast hLne) :=
      List.getLast?_eq_getLast _ hLne
    have : o = (sortedVersionsFromVersionStrings vs).getLast hLne := by
      rw [ho] at hlast
      exact Option.some.inj hlast
    rw [this]
    exact List.getLast_mem hLne
  have hmem2 : o ∈ vs.map parseVersion := by
    rw [sortedVersionsFromVersionStrings] at hmem
    exact (List.mem_insertionSort (fun a b => versionEntryLe a b = true)).mp hmem
  obtain ⟨s, hs, hov⟩ := List.mem_map.mp hmem2
  have hsome := hp s hs
  rw [hov] at hsome
  obtain ⟨v, hv⟩ := Option.isSome_iff_exists.mp hsome
  exact ⟨v, by rw [ho, hv]⟩

/-- C3 counterexample: with the configured cluster mainnet-beta, a non-empty
mainnet candidate set and an empty testnet candidate set,
GetLatestClientVersion fails, although the claim promises a version whenever
the active cluster's candidate set is non-empty. -/
theorem C3_counterexample_other_cluster_empty :
    ["v1.0.0"] ≠ ([] : List String)
    ∧ getLatestClientVersionFromCandidates clusterNameMainnetBeta ["v1.0.0"] []
        = .failed "no testnet releases found matching regex" := by
  exact ⟨by decide, by decide⟩

/-- C3 (amended): GetLatestClientVersion fails with the no-matching-releases
error as soon as any valid cluster's candidate set is empty, not only the
configured cluster's; when every cluster's candidate set is non-empty (and,
per C10's precondition, every candidate parses) it returns a version for
either valid configured cluster. -/
theorem C3_amended_any_empty_cluster_fails :
    ∀ (cluster : String) (mainnetVersionStrings testnetVersionStrings : List String),
      ((mainnetVersionStrings = [] ∨ testnetVersionStrings = []) →
        ∃ m, getLatestClientVersionFromCandidates cluster
              mainnetVersionStrings testnetVersionStrings = .failed m)
      ∧ (mainnetVersionStrings ≠ [] → testnetVersionStrings ≠ [] →
         (∀ s ∈ mainnetVersionStrings, (parseVersion s).isSome = true) →
         (∀ s ∈ testnetVersionStrings, (parseVersion s).isSome = true) →
         (cluster = clusterNameMainnetBeta ∨ cluster = clusterNameTestnet) →
         ∃ v, getLatestClientVersionFromCandidates cluster
               mainnetVersionStrings testnetVersionStrings = .ok v) := by
  intro cluster vm vt
  constructor
  · intro h
    by_cases hm : vm = []
    · exact ⟨"no " ++ clusterNameMainnetBeta ++ " releases found matching regex",
        by simp [getLatestClientVersionFromCandidates, hm]⟩
    · have hvt : vt = [] := by tauto
      exact ⟨"no " ++ clusterNameTestnet ++ " releases found matching regex",
        by simp [getLatestClientVersionFromCandidates, hm, hvt]⟩
  · intro h1 h2 hp1 hp2 hcl
    obtain ⟨lm, hlm⟩ := sorted_getLast_isSome vm h1 hp1
    obtain ⟨lt, hlt⟩ := sorted_getLast_isSome vt h2 hp2
    have hsel : ∃ v, crossNetworkSelect cluster lm lt = some v := by
      rcases hcl with h | h <;>
        simp [crossNetworkSelect, latestClusterLookup, h, clusterNameMainnetBeta,
          clusterNameTestnet]
    obtain ⟨v, hv⟩ := hsel
    refine ⟨v, ?_⟩
    simp [getLatestClientVersionFromCandidates, h1, h2, hlm, hlt, hv]

/-- Witness for C3 (amended) at a concrete input: both candidate sets
non-empty and parsable yields a version for the mainnet-beta cluster. -/
theorem C3_amended_any_empty_cluster_fails_witness :
    ∃ v, getLatestClientVersionFromCandidates clusterNameMainnetBeta
          ["v1.0.0"] ["v1.1.0"] = .ok v :=
  (C3_amended_any_empty_cluster_fails clusterNameMainnetBeta ["v1.0.0"] ["v1.1.0"]).2
    (by decide) (by decide) (by decide) (by decide) (Or.inl rfl)

/-- Shape of a Requirements record after a successful setClientBounds on a
record whose bound fields still hold their zero values: the Has flags track
the parsed bounds, the constraint list is exactly the greater-equal
constraint for a present min bound followed by the less-equal constraint for
a present max bound, and at least one bound is present. -/
theorem setClientBounds_spec (r : Requirements) (hm0 : r.minVersion = none)
    (hx0 : r.maxVersion = none) (hhm0 : r.hasMinVersion = false)
    (hhx0 : r.hasMaxVersion = false) (minS maxS : String) (out : Requirements)
    (h : setClientBounds r minS maxS = .ok out) :
    out.hasMinVersion = out.minVersion.isSome
    ∧ out.hasMaxVersion = out.maxVersion.isSome
    ∧ out.constraints =
        (match out.minVersion with
         | some v => [VersionConstraint.mk ConstraintOp.ge v]
         | none => []) ++
        (match out.maxVersion with
         | some v => [VersionConstraint.mk ConstraintOp.le v]
         | none => [])
    ∧ ¬ (out.minVersion = none ∧ out.maxVersion = none) := by
  unfold setClientBounds parseBoundVersion at h
  by_cases hm : minS = ""
  · by_cases hx : maxS = ""
    · simp [hm, hx] at h
    · cases hpx : parseVersion maxS with
      | none => simp [hm, hx, hpx] at h
      | some vx =>
        simp [hm, hx, hpx] at h
        rw [← h]
        simp [hm0, hx0, hhm0, hhx0]
  · cases hpm : parseVersion minS with
    | none => simp [hm, hpm] at h
    | some vm =>
      by_cases hx : maxS = ""
      · simp [hm, hx, hpm] at h
        rw [← h]
        simp [hm0, hx0, hhm0, hhx0]
      · cases hpx : parseVersion maxS with
        | none => simp [hm, hx, hpm, hpx] at h
        | some vx =>
          simp [hm, hx, hpm, hpx] at h
          rw [← h]
          simp [hm0, hx0, hhm0, hhx0]

/-- Shape of a Requirements record after SetClient succeeds on a freshly
decoded record (same conclusions as setClientBounds_spec). -/
theorem setClient_fresh_spec (e : Int) (cl amin amax fmin fmax : String) (inh : Bool)
    (client : String) (out : Requirements)
    (h : (Requirements.fresh e cl amin amax fmin fmax inh).setClient client = .ok out) :
    out.hasMinVersion = out.minVersion.isSome
    ∧ out.hasMaxVersion = out.maxVersion.isSome
    ∧ out.constraints =
        (match out.minVersion with
         | some v => [VersionConstraint.mk ConstraintOp.ge v]
         | none => []) ++
        (match out.maxVersion with
         | some v => [VersionConstraint.mk ConstraintOp.le v]
         | none => [])
    ∧ ¬ (out.minVersion = none ∧ out.maxVersion = none) := by
  unfold Requirements.setClient at h
  by_cases h1 : client = clientNameAgave ∨ client = clientNameJitoSolana
  · rw [if_pos h1] at h
    exact setClientBounds_spec _ rfl rfl rfl rfl _ _ _ h
  · rw [if_neg h1] at h
    by_cases h2 : client = clientNameFiredancer
    · rw [if_pos h2] at h
      exact setClientBounds_spec _ rfl rfl rfl rfl _ _ _ h
    · rw [if_neg h2] at h
      exact absurd h (by simp)

/-- Compliance record with only a min bound, for the C8 counterexample and
witness. -/
def c8Record : Requirements :=
  Requirements.fresh 805 "mainnet-beta" "1.18.0" "" "" "" false

/-- Result of SetClient on c8Record (the error branch is unreachable). -/
def c8Reqs : Requirements :=
  match c8Record.setClient "agave" with
  | .ok r => r
  | .error _ => c8Record

/-- C8 counterexample: with only the plain min bound 1.18.0, the pre-release
candidate 1.19.0-beta is at least the min bound in the library's version
order, yet the built constraint rejects it: every constraint operator first
applies the pre-release gate, under which a bound without pre-release suffix
matches no pre-release candidate.  So the constraint does not accept exactly
the versions greater than or equal to min. -/
theorem C8_counterexample_prerelease_rejected :
    c8Record.setClient "agave" = .ok c8Reqs
    ∧ c8Reqs.minVersion = some ⟨1, 18, 0, "", ""⟩
    ∧ c8Reqs.maxVersion = none
    ∧ 0 ≤ goVersionCompare ⟨1, 19, 0, "beta", ""⟩ ⟨1, 18, 0, "", ""⟩
    ∧ checkConstraints c8Reqs.constraints ⟨1, 19, 0, "beta", ""⟩ = false :=
  ⟨rfl, by decide, by decide, by decide, by decide⟩

/-- C8 (amended): for every freshly decoded Requirements record on which
SetClient succeeds, with only a min bound present the built constraint
accepts exactly the versions that pass the pre-release gate against the
bound and are at least min; with both bounds present it accepts exactly the
versions passing both gates that lie in the closed interval.  In particular,
for candidates without a pre-release suffix (where the gate always passes)
the acceptance set is exactly the at-least-min set, respectively the closed
interval. -/
theorem C8_amended_constraint_construction :
    ∀ (e : Int) (cl amin amax fmin fmax : String) (inh : Bool)
      (client : String) (out : Requirements),
      (Requirements.fresh e cl amin amax fmin fmax inh).setClient client = .ok out →
      ∀ v : Version,
        (∀ mn, out.minVersion = some mn → out.maxVersion = none →
          ((checkConstraints out.constraints v = true ↔
              (prereleaseCheck v mn = true ∧ 0 ≤ goVersionCompare v mn))
           ∧ (v.prerelease = "" →
              (checkConstraints out.constraints v = true ↔
                0 ≤ goVersionCompare v mn))))
        ∧ (∀ mn mx, out.minVersion = some mn → out.maxVersion = some mx →
          ((checkConstraints out.constraints v = true ↔
              (prereleaseCheck v mn = true ∧ 0 ≤ goVersionCompare v mn ∧
               prereleaseCheck v mx = true ∧ goVersionCompare v mx ≤ 0))
           ∧ (v.prerelease = "" →
              (checkConstraints out.constraints v = true ↔
                (0 ≤ goVersionCompare v mn ∧ goVersionCompare v mx ≤ 0))))) := by
  intro e cl amin amax fmin fmax inh client out h v
  obtain ⟨hhm, hhx, hcs, hne⟩ := setClient_fresh_spec e cl amin amax fmin fmax inh client out h
  constructor
  · intro mn hmn hmx
    rw [hcs, hmn, hmx]
    constructor
    · simp [checkConstraints, VersionConstraint.check]
    · intro hv
      simp [checkConstraints, VersionConstraint.check, prereleaseCheck, hv]
  · intro mn mx hmn hmx
    rw [hcs, hmn, hmx]
    constructor
    · simp [checkConstraints, VersionConstraint.check, and_assoc]
    · intro hv
      simp [checkConstraints, VersionConstraint.check, prereleaseCheck, hv]

/-- Witness for C8 (amended) at a concrete input: the candidate 1.19.0
without pre-release suffix is accepted by the min-only constraint exactly
when it is at least 1.18.0. -/
theorem C8_amended_constraint_construction_witness :
    checkConstraints c8Reqs.constraints ⟨1, 19, 0, "", ""⟩ = true ↔
      0 ≤ goVersionCompare ⟨1, 19, 0, "", ""⟩ ⟨1, 18, 0, "", ""⟩ :=
  ((C8_amended_constraint_construction 805 "mainnet-beta" "1.18.0" "" "" "" false
    "agave" c8Reqs rfl ⟨1, 19, 0, "", ""⟩).1 ⟨1, 18, 0, "", ""⟩
    (by decide) (by decide)).2 rfl

/-- Compliance record with inverted bounds (min 3.0.0 above max 1.0.0), the
shape on which the claim's else-if reading and the source's independent
checks disagree. -/
def c1Record : Requirements :=
  Requirements.fresh 800 "mainnet-beta" "3.0.0" "1.0.0" "" "" false

/-- Result of SetClient on c1Record (the error branch is unreachable). -/
def c1Reqs : Requirements :=
  match c1Record.setClient "agave" with
  | .ok r => r
  | .error _ => c1Record

/-- C1 counterexample: on the inverted-bounds record with target 2.0.0 the
constraint check fails, a max bound exists and the target's core exceeds it,
so the claim's else-if order demands the max bound 1.0.0; the source's
later min-bound check overwrites the max assignment and 3.0.0 is returned
instead. -/
theorem C1_counterexample_min_overrides_max :
    c1Record.setClient "agave" = .ok c1Reqs
    ∧ checkConstraints c1Reqs.constraints (Version.mk 2 0 0 "" "").Core = false
    ∧ c1Reqs.hasMaxVersion = true
    ∧ c1Reqs.maxVersion = some ⟨1, 0, 0, "", ""⟩
    ∧ 0 < goVersionCompare (Version.mk 2 0 0 "" "").Core (Version.mk 1 0 0 "" "").Core
    ∧ getSFDPCompliantVersion c1Reqs ⟨2, 0, 0, "", ""⟩ = some (some ⟨3, 0, 0, "", ""⟩)
    ∧ ¬ getSFDPCompliantVersion c1Reqs ⟨2, 0, 0, "", ""⟩ = some (some ⟨1, 0, 0, "", ""⟩) :=
  ⟨rfl, by decide, by decide, by decide, by decide, by decide, by decide⟩

/-- Segment comparison ignores the other side's suffixes, so comparing
against a core is the same as comparing against the full version. -/
theorem coreCompare_core_right (x v : Version) : coreCompare x v.Core = coreCompare x v :=
  rfl

/-- For a version x without pre-release suffix, being at least v in the full
order implies being at least the core of v. -/
theorem goVersionCompare_core_right_nonneg (x v : Version) (hx : x.prerelease = "")
    (h : 0 ≤ goVersionCompare x v) : 0 ≤ goVersionCompare x v.Core := by
  simp only [goVersionCompare] at h ⊢
  rw [coreCompare_core_right]
  by_cases h0 : coreCompare x v = 0
  · simp [h0, hx, Version.Core]
  · simp [h0] at h ⊢
    exact h

/-- For a version x without pre-release suffix, being at most v in the full
order implies being at most the core of v. -/
theorem goVersionCompare_core_right_nonpos (x v : Version) (hx : x.prerelease = "")
    (h : goVersionCompare x v ≤ 0) : goVersionCompare x v.Core ≤ 0 := by
  simp only [goVersionCompare] at h ⊢
  rw [coreCompare_core_right]
  by_cases h0 : coreCompare x v = 0
  · simp [h0, hx, Version.Core]
  · simp [h0] at h ⊢
    exact h

/-- C1 (amended): for every freshly decoded Requirements record on which
SetClient succeeds and every target version, getSFDPCompliantVersion returns
the target unchanged when the target's core satisfies the compliance
constraint; it returns the min bound whenever a min bound exists and the
target's core is below it (this check runs last and overwrites the max-bound
assignment when both violations hold, which needs min above max); and it
returns the max bound when a max bound exists, the target's core exceeds it,
and the min-bound check does not fire. -/
theorem C1_amended_sfdp_clamp :
    ∀ (e : Int) (cl amin amax fmin fmax : String) (inh : Bool)
      (client : String) (reqs : Requirements) (target : Version),
      (Requirements.fresh e cl amin amax fmin fmax inh).setClient client = .ok reqs →
      ((checkConstraints reqs.constraints target.Core = true →
          getSFDPCompliantVersion reqs target = some (some target))
       ∧ (∀ mn, reqs.minVersion = some mn →
            goVersionCompare target.Core mn.Core < 0 →
            getSFDPCompliantVersion reqs target = some (some mn))
       ∧ (∀ mx, reqs.maxVersion = some mx →
            0 < goVersionCompare target.Core mx.Core →
            (∀ mn, reqs.minVersion = some mn →
               ¬ goVersionCompare target.Core mn.Core < 0) →
            getSFDPCompliantVersion reqs target = some (some mx))) := by
  intro e cl amin amax fmin fmax inh client reqs target h
  obtain ⟨hhm, hhx, hcs, hne⟩ :=
    setClient_fresh_spec e cl amin amax fmin fmax inh client reqs h
  refine ⟨?_, ?_, ?_⟩
  · intro hcheck
    have hminNF : ∀ mn, reqs.minVersion = some mn →
        ¬ goVersionCompare target.Core mn.Core < 0 := by
      intro mn hmn
      rw [hcs, hmn] at hcheck
      simp only [checkConstraints, List.all_append, List.all_cons, List.all_nil,
        Bool.and_eq_true, VersionConstraint.check] at hcheck
      have hge : 0 ≤ goVersionCompare target.Core mn := by
        have hpair : prereleaseCheck target.Core mn = true
            ∧ 0 ≤ goVersionCompare target.Core mn := by
          simpa using hcheck.1.1
        exact hpair.2
      have := goVersionCompare_core_right_nonneg target.Core mn rfl hge
      omega
    have hmaxNF : ∀ mx, reqs.maxVersion = some mx →
        ¬ 0 < goVersionCompare target.Core mx.Core := by
      intro mx hmx
      rw [hcs, hmx] at hcheck
      simp only [checkConstraints, List.all_append, List.all_cons, List.all_nil,
        Bool.and_eq_true, VersionConstraint.check] at hcheck
      have hle : goVersionCompare target.Core mx ≤ 0 := by
        have hpair : prereleaseCheck target.Core mx = true
            ∧ goVersionCompare target.Core mx ≤ 0 := by
          simpa using hcheck.2.1
        exact hpair.2
      have := goVersionCompare_core_right_nonpos target.Core mx rfl hle
      omega
    unfold getSFDPCompliantVersion
    cases hmnv : reqs.minVersion with
    | none =>
      have hm : reqs.hasMinVersion = false := by rw [hhm, hmnv]; rfl
      cases hmxv : reqs.maxVersion with
      | none =>
        have hx : reqs.hasMaxVersion = false := by rw [hhx, hmxv]; rfl
        simp [hm, hx, hcheck]
      | some mx =>
        have hx : reqs.hasMaxVersion = true := by rw [hhx, hmxv]; rfl
        simp [hm, hx, hmxv, hcheck, hmaxNF mx hmxv]
    | some mn =>
      have hm : reqs.hasMinVersion = true := by rw [hhm, hmnv]; rfl
      cases hmxv : reqs.maxVersion with
      | none =>
        have hx : reqs.hasMaxVersion = false := by rw [hhx, hmxv]; rfl
        simp [hm, hx, hmnv, hcheck, hminNF mn hmnv]
      | some mx =>
        have hx : reqs.hasMaxVersion = true := by rw [hhx, hmxv]; rfl
        simp [hm, hx, hmnv, hmxv, hcheck, hminNF mn hmnv, hmaxNF mx hmxv]
  · intro mn hmn hfire
    have hm : reqs.hasMinVersion = true := by rw [hhm, hmn]; rfl
    unfold getSFDPCompliantVersion
    cases hmxv : reqs.maxVersion with
    | none =>
      have hx : reqs.hasMaxVersion = false := by rw [hhx, hmxv]; rfl
      simp [hm, hx, hmn, hfire]
    | some mx =>
      have hx : reqs.hasMaxVersion = true := by rw [hhx, hmxv]; rfl
      simp [hm, hx, hmn, hmxv, hfire]
  · intro mx hmx hfire hNF
    have hx : reqs.hasMaxVersion = true := by rw [hhx, hmx]; rfl
    unfold getSFDPCompliantVersion
    cases hmnv : reqs.minVersion with
    | none =>
      have hm : reqs.hasMinVersion = false := by rw [hhm, hmnv]; rfl
      simp [hm, hx, hmx, hfire]
    | some mn =>
      have hm : reqs.hasMinVersion = true := by rw [hhm, hmnv]; rfl
      simp [hm, hx, hmx, hmnv, hfire, hNF mn hmnv]

/-- Compliance record with min bound 2.0.0 and max bound 3.0.0, for the C1
witness. -/
def c1wRecord : Requirements :=
  Requirements.fresh 806 "mainnet-beta" "2.0.0" "3.0.0" "" "" false

/-- Result of SetClient on c1wRecord (the error branch is unreachable). -/
def c1wReqs : Requirements :=
  match c1wRecord.setClient "agave" with
  | .ok r => r
  | .error _ => c1wRecord

/-- Witness for C1 (amended) at a concrete input: target 1.0.0 below min
bound 2.0.0 is clamped up to the min bound. -/
theorem C1_amended_sfdp_clamp_witness :
    getSFDPCompliantVersion c1wReqs ⟨1, 0, 0, "", ""⟩ = some (some ⟨2, 0, 0, "", ""⟩) :=
  (C1_amended_sfdp_clamp 806 "mainnet-beta" "2.0.0" "3.0.0" "" "" false "agave"
    c1wReqs ⟨1, 0, 0, "", ""⟩ rfl).2.1 ⟨2, 0, 0, "", ""⟩ (by decide) (by decide)

/-- C4: for every run in which the state refresh succeeds and the refreshed
identity public key matches neither the configured active nor passive key,
SyncVersion fails with the unrecognized-identity condition, and the trace of
network calls the attempt made contains no release-discovery call. -/
theorem C4_unknown_identity_before_discovery :
    ∀ (env : SyncEnv) (versionString identity health : String) (fromVersion : Version),
      env.rpcGetVersionResponse = .ok versionString →
      parseVersion versionString = some fromVersion →
      env.rpcGetIdentityResponse = .ok identity →
      env.rpcGetHealthResponse = .ok health →
      identity ≠ env.activeIdentityPublicKey →
      identity ≠ env.passiveIdentityPublicKey →
      (syncVersion env).1 = .failed .unrecognizedIdentity
      ∧ SyncCall.githubGetLatestClientVersion ∉ (syncVersion env).2 := by
  intro env vs idk hl f hv hp hi hh hna hnp
  have hact : IsActive idk env.activeIdentityPublicKey = false := by
    simp [IsActive, hna]
  have hpas : IsPassive idk env.activeIdentityPublicKey env.passiveIdentityPublicKey
      = false := by
    simp [IsPassive, hnp]
  have heq : syncVersion env =
      (.failed .unrecognizedIdentity,
       [SyncCall.rpcGetVersion, SyncCall.rpcGetIdentity, SyncCall.rpcGetHealth]) := by
    unfold syncVersion
    rw [hv]
    simp only []
    rw [hp, hi, hh]
    simp [hact, hpas]
  rw [heq]
  exact ⟨rfl, by decide⟩

/-- Environment whose refreshed identity matches neither configured key, for
the C4 witness. -/
def c4Env : SyncEnv :=
  { activeIdentityPublicKey := "ACTIVEKEY",
    passiveIdentityPublicKey := "PASSIVEKEY",
    enabledWhenActive := false,
    enabledWhenNoActiveLeaderInGossip := false,
    enableSFDPCompliance := true,
    versionConstraintCheck := fun _ => true,
    rpcGetVersionResponse := .ok "1.18.3",
    rpcGetIdentityResponse := .ok "SOMEOTHERKEY",
    rpcGetHealthResponse := .ok "ok",
    rpcGetNodeWithActiveIdentityResponse := .ok (true, "node"),
    githubGetLatestClientVersionResult := .ok ⟨1, 18, 3, "", ""⟩,
    sfdpGetLatestRequirementsResponse := .error "unused",
    githubHasTaggedVersionResponse := .ok true,
    commands := [] }

/-- Witness for C4 at a concrete input: the unrecognized identity aborts the
attempt and no release-discovery call appears in the trace. -/
theorem C4_unknown_identity_before_discovery_witness :
    (syncVersion c4Env).1 = .failed .unrecognizedIdentity
    ∧ SyncCall.githubGetLatestClientVersion ∉ (syncVersion c4Env).2 :=
  C4_unknown_identity_before_discovery c4Env "1.18.3" "SOMEOTHERKEY" "ok"
    ⟨1, 18, 3, "", ""⟩ rfl (by decide) rfl rfl (by decide) (by decide)

end VersionSync
